import Mathlib

/-!
Verification development for the `keysharecore` package of the irmago
keyshare server: a shallow embedding of the engine's operations
(`GenerateKeyshareSecret`, `DangerousBuildKeyshareSecret`, `ValidatePin`,
`ValidateJWT`, `ChangePin`, `GenerateCommitments`, `GenerateResponse`,
`padPin` and the internal `verifyAccess`) together with theorems about
their error behaviour, frame effects and functional correctness.

Randomness (`crypto/rand`) is passed in explicitly, wall-clock time
(`time.Now().Unix()`) is an explicit `now : Int` parameter, and the
signed JWT compact serialization is represented by the structured token
value that is signed (serialization is injective, so nothing is lost).
Bytes are `Nat` values below 256, byte strings are `List Nat`.
-/

set_option maxRecDepth 1000000

namespace Keysharecore

/-- The closed error enumeration of the engine (`ErrInvalidPin`,
`ErrPinTooLong`, `ErrInvalidChallenge`, `ErrInvalidJWT`, `ErrKeyNotFound`,
`ErrUnknownCommit`), plus `invalidPacket` for AEAD decryption failure and
`internal` for RNG/primitive failure. -/
inductive KError where
  | invalidPin
  | pinTooLong
  | invalidChallenge
  | invalidJWT
  | keyNotFound
  | unknownCommit
  | invalidPacket
  | internal
  deriving DecidableEq, Repr

/-- Model of Go `crypto/hmac.Equal`: constant-time comparison, which
returns true exactly when the two byte slices have equal length and equal
contents, i.e. plain list equality. -/
def hmacEqual (a b : List Nat) : Bool := decide (a = b)

/-- Model of `padPin` (source lines 279-287): pad the byte string of the
pin into 64 bytes, extending with zero bytes; `ErrPinTooLong` when the pin
is longer than 64 bytes. -/
def padPin (pin : List Nat) : Except KError (List Nat) :=
  if pin.length > 64 then .error .pinTooLong
  else .ok (pin ++ List.replicate (64 - pin.length) 0)

/-! ### Base64 (Go `encoding/base64` `StdEncoding`), used for `token_id` -/

/-- The standard base64 alphabet. -/
def b64Alphabet : List Char :=
  "ABCDEFGHIJKLMNOPQRSTUVWXYZabcdefghijklmnopqrstuvwxyz0123456789+/".toList

/-- The character encoding a 6-bit group. -/
def b64Char (n : Nat) : Char := b64Alphabet.getD n 'A'

/-- The 6-bit value of an alphabet character, `none` for characters
outside the alphabet (including the padding character). -/
def b64Val (c : Char) : Option Nat := b64Alphabet.findIdx? (fun x => x = c)

/-- Model of `base64.StdEncoding.EncodeToString` on a byte list: 3-byte
groups become 4 alphabet characters, a trailing group of 1 or 2 bytes is
encoded with `=` padding. -/
def b64Encode : List Nat → List Char
  | [] => []
  | [a] => [b64Char (a / 4), b64Char (a % 4 * 16), '=', '=']
  | [a, b] => [b64Char (a / 4), b64Char (a % 4 * 16 + b / 16), b64Char (b % 16 * 4), '=']
  | a :: b :: c :: rest =>
      b64Char (a / 4) :: b64Char (a % 4 * 16 + b / 16) ::
      b64Char (b % 16 * 4 + c / 64) :: b64Char (c % 64) :: b64Encode rest

/-- Model of `base64.StdEncoding.DecodeString`: input must consist of
4-character groups over the alphabet, with `=` padding allowed only at the
very end; `none` on any violation (Go returns `CorruptInputError`). -/
def b64Decode : List Char → Option (List Nat)
  | [] => some []
  | c1 :: c2 :: c3 :: c4 :: rest =>
      match b64Val c1, b64Val c2 with
      | some v1, some v2 =>
          if c3 = '=' then
            if c4 = '=' then
              if rest = [] then some [v1 * 4 + v2 / 16] else none
            else none
          else
            match b64Val c3 with
            | some v3 =>
                if c4 = '=' then
                  if rest = [] then some [v1 * 4 + v2 / 16, v2 % 16 * 16 + v3 / 4] else none
                else
                  match b64Val c4 with
                  | some v4 =>
                      (b64Decode rest).map
                        (fun tl => (v1 * 4 + v2 / 16) :: (v2 % 16 * 16 + v3 / 4) ::
                                   (v3 % 4 * 64 + v4) :: tl)
                  | none => none
            | none => none
      | _, _ => none
  | _ => none

theorem b64Val_b64Char : ∀ n < 64, b64Val (b64Char n) = some n := by decide

theorem b64Char_ne_eq : ∀ n < 64, b64Char n ≠ '=' := by decide

theorem b64_roundtrip : ∀ (l : List Nat), (∀ b ∈ l, b < 256) →
    b64Decode (b64Encode l) = some l := by
  intro l
  induction l using b64Encode.induct with
  | case1 => intro _; rfl
  | case2 a =>
      intro h
      have ha : a < 256 := h a (by simp)
      have h1 : a / 4 < 64 := by omega
      have h2 : a % 4 * 16 < 64 := by omega
      simp only [b64Encode, b64Decode, b64Val_b64Char _ h1, b64Val_b64Char _ h2]
      simp
      omega
  | case3 a b =>
      intro h
      have ha : a < 256 := h a (by simp)
      have hb : b < 256 := h b (by simp)
      have h1 : a / 4 < 64 := by omega
      have h2 : a % 4 * 16 + b / 16 < 64 := by omega
      have h3 : b % 16 * 4 < 64 := by omega
      simp only [b64Encode, b64Decode, b64Val_b64Char _ h1, b64Val_b64Char _ h2,
        b64Val_b64Char _ h3]
      simp [b64Char_ne_eq _ h3]
      omega
  | case4 a b c rest ih =>
      intro h
      have ha : a < 256 := h a (by simp)
      have hb : b < 256 := h b (by simp)
      have hc : c < 256 := h c (by simp)
      have hrest : ∀ x ∈ rest, x < 256 := by
        intro x hx; exact h x (by simp [hx])
      have h1 : a / 4 < 64 := by omega
      have h2 : a % 4 * 16 + b / 16 < 64 := by omega
      have h3 : b % 16 * 4 + c / 64 < 64 := by omega
      have h4 : c % 64 < 64 := by omega
      simp only [b64Encode, b64Decode, b64Val_b64Char _ h1, b64Val_b64Char _ h2,
        b64Val_b64Char _ h3, b64Val_b64Char _ h4]
      simp [b64Char_ne_eq _ h3, b64Char_ne_eq _ h4, ih hrest]
      omega

/-! ### JWT model (github.com/dgrijalva/jwt-go v3)

A parsed JWT is represented by the structured value that is signed. The
RSA signature is modelled symbolically: `sig = some k` means the compact
serialization carries a signature that verifies under the public half of
key `k` (keys are named by `Nat`). JSON claim values are `JVal`. -/

/-- A JSON claim value as seen by jwt-go `MapClaims`: a number (jwt-go
reads time claims through `float64`), a string, or anything else. -/
inductive JVal where
  | jnum (n : Int)
  | jstr (s : String)
  | jother
  deriving DecidableEq, Repr

/-- The signing algorithm named in the JWT header. -/
inductive JWTAlg where
  | RS256
  | HS256
  | noAlg
  deriving DecidableEq, Repr

/-- The claims of a token, as a jwt-go `MapClaims` restricted to the keys
the engine ever reads or writes (`iss`, `sub`, `iat`, `nbf`, `exp`,
`user_id`, `token_id`, `ProofP`); absent keys are `none`. -/
structure TokenClaims where
  iss : Option JVal
  sub : Option JVal
  iat : Option JVal
  nbf : Option JVal
  exp : Option JVal
  user_id : Option JVal
  token_id : Option JVal
  proofP : Option JVal
  deriving DecidableEq, Repr

/-- A JWT: header algorithm, header `kid`, claims, and the key (if any)
whose signature the serialization carries. -/
structure Token where
  alg : JWTAlg
  kid : String
  claims : TokenClaims
  sig : Option Nat
  deriving DecidableEq, Repr

/-- Model of jwt-go `verifyExp`: a zero expiry stands for the Go zero
value and passes only when the claim is not required; otherwise the token
is unexpired when `now <= exp`. -/
def verifyExpNum (e : Int) (now : Int) (req : Bool) : Bool :=
  if e = 0 then !req else decide (now ≤ e)

/-- Model of jwt-go `MapClaims.VerifyExpiresAt`: the type switch accepts
only numeric `exp`; a missing or non-numeric `exp` yields `!req`. -/
def verifyExpClaim (e : Option JVal) (now : Int) (req : Bool) : Bool :=
  match e with
  | some (.jnum n) => verifyExpNum n now req
  | some _ => !req
  | none => !req

/-- Model of jwt-go `MapClaims.VerifyIssuedAt` (`verifyIat`): zero stands
for the Go zero value; otherwise requires `iat <= now`. -/
def verifyIatClaim (i : Option JVal) (now : Int) (req : Bool) : Bool :=
  match i with
  | some (.jnum n) => if n = 0 then !req else decide (n ≤ now)
  | some _ => !req
  | none => !req

/-- Model of jwt-go `MapClaims.VerifyNotBefore` (`verifyNbf`): zero stands
for the Go zero value; otherwise requires `nbf <= now`. -/
def verifyNbfClaim (b : Option JVal) (now : Int) (req : Bool) : Bool :=
  match b with
  | some (.jnum n) => if n = 0 then !req else decide (n ≤ now)
  | some _ => !req
  | none => !req

/-- Model of jwt-go `MapClaims.Valid`: the three time-based claims, each
optional. -/
def mapClaimsValid (cl : TokenClaims) (now : Int) : Bool :=
  verifyExpClaim cl.exp now false && verifyIatClaim cl.iat now false &&
    verifyNbfClaim cl.nbf now false

/-- Model of `jwt.Parse` with the engine's keyfunc (source lines 159-165):
the keyfunc rejects any method other than RS256 with `ErrInvalidJWT`, the
parser then validates the time claims and the RS256 signature against the
public half of `pubKey`; any of the three failures makes `Parse` return an
error. -/
def jwtParse (pubKey : Nat) (t : Token) (now : Int) : Except KError TokenClaims :=
  if t.alg ≠ JWTAlg.RS256 then .error .invalidJWT
  else if ¬ mapClaimsValid t.claims now then .error .invalidJWT
  else if t.sig ≠ some pubKey then .error .invalidJWT
  else .ok t.claims

/-! ### Keyshare packets -/

/-- Modelled from the spec: the unencrypted keyshare packet of §3/§4.B
(its codec lives outside the provided sources). Fields: the 64-byte
zero-padded pin, the keyshare secret as a big integer, and the 32-byte
packet-instance id. -/
structure UnencryptedKeysharePacket where
  pinHash : List Nat
  secret : Int
  id : List Nat
  deriving DecidableEq, Repr

/-- Modelled from the spec: the `pin()` accessor of the packet codec. -/
def UnencryptedKeysharePacket.pin (p : UnencryptedKeysharePacket) : List Nat := p.pinHash

/-- Modelled from the spec: the `setPin` accessor; writes only the
`pin_hash` field. -/
def UnencryptedKeysharePacket.setPin (p : UnencryptedKeysharePacket) (v : List Nat) :
    UnencryptedKeysharePacket := { p with pinHash := v }

/-- Modelled from the spec: the `keyshareSecret()` accessor. -/
def UnencryptedKeysharePacket.keyshareSecret (p : UnencryptedKeysharePacket) : Int := p.secret

/-- Modelled from the spec: the `setKeyshareSecret` accessor; the secret
field is fixed-width (64 bytes, big-endian), so the accessor fails when
the supplied big integer does not fit. Writes only the `secret` field. -/
def UnencryptedKeysharePacket.setKeyshareSecret (p : UnencryptedKeysharePacket) (s : Int) :
    Except KError UnencryptedKeysharePacket :=
  if 0 ≤ s ∧ s < 2 ^ (8 * 64) then .ok { p with secret := s } else .error .internal

/-- Modelled from the spec: the `setID` accessor; writes only the `id`
field. -/
def UnencryptedKeysharePacket.setID (p : UnencryptedKeysharePacket) (v : List Nat) :
    UnencryptedKeysharePacket := { p with id := v }

/-- Modelled from the spec: an encrypted keyshare packet (§4.C). The AEAD
is modelled symbolically: the ciphertext determines its plaintext, and the
`intact` flag is false for tampered or otherwise undecryptable bytes. -/
structure EncryptedKeysharePacket where
  payload : UnencryptedKeysharePacket
  intact : Bool
  deriving DecidableEq, Repr

/-- Modelled from the spec: `encryptPacket` encrypts under the current key
version, producing a ciphertext that authenticates and decrypts back to
exactly the packet (§4.C, §8 packet round-trip). -/
def encryptPacket (p : UnencryptedKeysharePacket) : EncryptedKeysharePacket :=
  { payload := p, intact := true }

/-- Modelled from the spec: `decryptPacket` authenticates and decrypts; any
failure (bad MAC, unknown version, truncation) is the single error
`InvalidPacket`. -/
def decryptPacket (ep : EncryptedKeysharePacket) : Except KError UnencryptedKeysharePacket :=
  if ep.intact then .ok ep.payload else .error .invalidPacket

/-! ### The engine -/

/-- The engine state that is immutable after construction: the RSA signing
key (named by a `Nat`, standing for the keypair), its `kid`, and the
read-only trusted-key registry (public-key identifiers and Idemix public
keys both named by `Nat`). The mutable commitment store is threaded
explicitly through the two operations that touch it. -/
structure Core where
  signKey : Nat
  signKeyID : String
  trustedKeys : Nat → Option Nat

/-- The in-memory commitment store: commit id to commit secret. -/
def CommitmentStore : Type := Nat → Option Nat

/-- Model of `verifyAccess` (source lines 157-200): parse the token with
the RS256-pinning keyfunc, re-check the claims, require an unexpired `exp`
(required flag set), require a string `token_id` that base64-decodes,
decrypt the packet, and compare the decoded id with the packet id in
constant time. Token defects yield `ErrInvalidJWT`; a decryption failure
propagates as is. -/
def Core.verifyAccess (c : Core) (now : Int) (ep : EncryptedKeysharePacket) (t : Token) :
    Except KError UnencryptedKeysharePacket :=
  match jwtParse c.signKey t now with
  | .error _ => .error .invalidJWT
  | .ok claims =>
    if ¬ mapClaimsValid claims now then .error .invalidJWT
    else if ¬ verifyExpClaim claims.exp now true then .error .invalidJWT
    else
      match claims.token_id with
      | none => .error .invalidJWT
      | some (JVal.jstr s) =>
          match b64Decode s.toList with
          | none => .error .invalidJWT
          | some tokenID =>
              match decryptPacket ep with
              | .error e => .error e
              | .ok p => if hmacEqual p.id tokenID then .ok p else .error .invalidJWT
      | some _ => .error .invalidJWT

/-- Model of `ValidateJWT` (source lines 115-118): run `verifyAccess` and
return only the error. -/
def Core.ValidateJWT (c : Core) (now : Int) (ep : EncryptedKeysharePacket) (t : Token) :
    Except KError Unit :=
  match c.verifyAccess now ep t with
  | .error e => .error e
  | .ok _ => .ok ()

/-- Model of `ValidatePin` (source lines 82-112): pad the pin, decrypt,
compare in constant time, and mint the RS256 access token with the fixed
claim set; both `time.Now()` readings within the call are the single
instant `now`. -/
def Core.ValidatePin (c : Core) (now : Int) (ep : EncryptedKeysharePacket) (pin : List Nat)
    (userID : String) : Except KError Token :=
  match padPin pin with
  | .error e => .error e
  | .ok paddedPin =>
    match decryptPacket ep with
    | .error e => .error e
    | .ok p =>
      if hmacEqual p.pin paddedPin then
        .ok {
          alg := JWTAlg.RS256
          kid := c.signKeyID
          sig := some c.signKey
          claims := {
            iss := some (JVal.jstr "keyshare_server")
            sub := some (JVal.jstr "auth_tok")
            iat := some (JVal.jnum now)
            nbf := none
            exp := some (JVal.jnum (now + 180))
            user_id := some (JVal.jstr userID)
            token_id := some (JVal.jstr (String.mk (b64Encode p.id)))
            proofP := none } }
      else .error .invalidPin

/-- Model of `ChangePin` (source lines 121-153): pad both pins, decrypt,
compare the old pin in constant time, then write the new pin and a fresh
random id (passed in as `freshID`) and re-encrypt. -/
def Core.ChangePin (c : Core) (freshID : List Nat) (ep : EncryptedKeysharePacket)
    (oldpinRaw newpinRaw : List Nat) : Except KError EncryptedKeysharePacket :=
  match padPin oldpinRaw with
  | .error e => .error e
  | .ok oldpin =>
    match padPin newpinRaw with
    | .error e => .error e
    | .ok newpin =>
      match decryptPacket ep with
      | .error e => .error e
      | .ok p =>
        if hmacEqual p.pin oldpin then .ok (encryptPacket ((p.setPin newpin).setID freshID))
        else .error .invalidPin

/-- Model of `GenerateKeyshareSecret` (source lines 27-55): pad the pin,
draw a keyshare secret and a fresh 32-byte id (both passed in explicitly),
fill a zero packet through the accessors, and encrypt. -/
def Core.GenerateKeyshareSecret (c : Core) (freshSecret : Int) (freshID : List Nat)
    (pinRaw : List Nat) : Except KError EncryptedKeysharePacket :=
  match padPin pinRaw with
  | .error e => .error e
  | .ok pin =>
    let p0 : UnencryptedKeysharePacket :=
      { pinHash := List.replicate 64 0, secret := 0, id := List.replicate 32 0 }
    match (p0.setPin pin).setKeyshareSecret freshSecret with
    | .error e => .error e
    | .ok p1 => .ok (encryptPacket (p1.setID freshID))

/-- Model of `DangerousBuildKeyshareSecret` (source lines 57-78): like
`GenerateKeyshareSecret` but with the caller-supplied secret. -/
def Core.DangerousBuildKeyshareSecret (c : Core) (secret : Int) (freshID : List Nat)
    (pinRaw : List Nat) : Except KError EncryptedKeysharePacket :=
  match padPin pinRaw with
  | .error e => .error e
  | .ok pin =>
    let p0 : UnencryptedKeysharePacket :=
      { pinHash := List.replicate 64 0, secret := 0, id := List.replicate 32 0 }
    match (p0.setPin pin).setKeyshareSecret secret with
    | .error e => .error e
    | .ok p1 => .ok (encryptPacket (p1.setID freshID))

/-! ### Proof participation -/

/-- `gabi.DefaultSystemParameters[1024].Lh`: the hash (challenge) bit
length of the 1024-bit Idemix parameter set, 256 bits (SHA-256). -/
def Lh1024 : Nat := 256

/-- Model of `math/big.Int.BitLen` on the absolute value: the length of
`n` in bits, 0 for 0. -/
def natBitLen (n : Nat) : Nat :=
  if n = 0 then 0 else natBitLen (n / 2) + 1
termination_by n
decreasing_by omega

/-- Opaque-oracle model of `gabi.NewKeyshareCommitments` (the spec treats
the Idemix primitives as opaque cryptographic oracles): it draws a commit
secret (the supplied randomness `rand`) and returns it with one commitment
per public key. -/
def gabiNewKeyshareCommitments (secret : Int) (keyList : List Nat) (rand : Nat) :
    Nat × List Nat :=
  (rand, keyList)

/-- Opaque-oracle model of `gabi.KeyshareResponse`: some deterministic
function of the keyshare secret, commit secret, challenge and key. -/
def gabiKeyshareResponse (secret : Int) (commit : Nat) (challenge : Int) (key : Nat) : Int :=
  secret + Int.ofNat commit + challenge * Int.ofNat key

/-- Model of the key-list loop of `GenerateCommitments` (source lines
205-212): resolve every identifier in order, failing with
`ErrKeyNotFound` on the first miss. -/
def Core.buildKeyList (c : Core) : List Nat → Except KError (List Nat)
  | [] => .ok []
  | kid :: rest =>
      match c.trustedKeys kid with
      | none => .error .keyNotFound
      | some key =>
          match c.buildKeyList rest with
          | .error e => .error e
          | .ok tl => .ok (key :: tl)

/-- Model of `GenerateCommitments` (source lines 203-239): build the key
list, verify access, invoke the commit oracle, draw a fresh 64-bit commit
id (`freshCommitID`, passed in), and store the commit secret under the
lock. Returns the result together with the commitment store after the
call. -/
def Core.GenerateCommitments (c : Core) (st : CommitmentStore) (now : Int)
    (ep : EncryptedKeysharePacket) (accessToken : Token) (keyIDs : List Nat)
    (commitRand : Nat) (freshCommitID : Nat) :
    Except KError (List Nat × Nat) × CommitmentStore :=
  match c.buildKeyList keyIDs with
  | .error e => (.error e, st)
  | .ok keyList =>
    match c.verifyAccess now ep accessToken with
    | .error e => (.error e, st)
    | .ok p =>
      let res := gabiNewKeyshareCommitments p.keyshareSecret keyList commitRand
      (.ok (res.2, freshCommitID), fun k => if k = freshCommitID then some res.1 else st k)

/-- Model of `GenerateResponse` (source lines 242-276): validate the
challenge (`BitLen() > Lh` or negative is `ErrInvalidChallenge`), resolve
the key, verify access, then under the lock fetch and delete the commit
record (delete happens whether or not the record exists); absence is
`ErrUnknownCommit`, otherwise the RS256-signed `ProofP` response token.
Returns the result together with the commitment store after the call. -/
def Core.GenerateResponse (c : Core) (st : CommitmentStore) (now : Int)
    (ep : EncryptedKeysharePacket) (accessToken : Token) (commitID : Nat)
    (challenge : Int) (keyID : Nat) : Except KError Token × CommitmentStore :=
  if natBitLen challenge.natAbs > Lh1024 ∨ challenge < 0 then (.error .invalidChallenge, st)
  else
    match c.trustedKeys keyID with
    | none => (.error .keyNotFound, st)
    | some key =>
      match c.verifyAccess now ep accessToken with
      | .error e => (.error e, st)
      | .ok p =>
        let fetched := st commitID
        let st1 : CommitmentStore := fun k => if k = commitID then none else st k
        match fetched with
        | none => (.error .unknownCommit, st1)
        | some commit =>
          (.ok {
            alg := JWTAlg.RS256
            kid := c.signKeyID
            sig := some c.signKey
            claims := {
              iss := some (JVal.jstr "keyshare_server")
              sub := some (JVal.jstr "ProofP")
              iat := some (JVal.jnum now)
              nbf := none
              exp := none
              user_id := none
              token_id := none
              proofP := some (JVal.jnum (gabiKeyshareResponse p.keyshareSecret commit
                challenge key)) } }, st1)

/-! ### Concrete sample values used by witnesses and counterexamples -/

/-- A concrete engine: signing key 1 named "k0", one trusted Idemix key
(identifier 7, key 70). -/
def sampleCore : Core :=
  { signKey := 1, signKeyID := "k0", trustedKeys := fun k => if k = 7 then some 70 else none }

/-- A concrete decrypted packet: pin "\x09\x07" zero-padded, secret 5,
id `[3, 3, 3]`. -/
def samplePacket : UnencryptedKeysharePacket :=
  { pinHash := [9, 7] ++ List.replicate 62 0, secret := 5, id := [3, 3, 3] }

/-- The encryption of `samplePacket`. -/
def sampleEp : EncryptedKeysharePacket := encryptPacket samplePacket

/-- The access token `ValidatePin` mints for `sampleEp` at time 1000
(base64 of `[3, 3, 3]` is "AwMD"). -/
def sampleToken : Token :=
  { alg := JWTAlg.RS256
    kid := "k0"
    sig := some 1
    claims := {
      iss := some (JVal.jstr "keyshare_server")
      sub := some (JVal.jstr "auth_tok")
      iat := some (JVal.jnum 1000)
      nbf := none
      exp := some (JVal.jnum 1180)
      user_id := some (JVal.jstr "u")
      token_id := some (JVal.jstr "AwMD")
      proofP := none } }

/-- A concrete commitment store holding commit id 5 with secret 11. -/
def sampleStore : CommitmentStore := fun k => if k = 5 then some 11 else none

/-! ### Claim theorems -/

/-- Claim C8: for every byte string of at most 64 bytes, `padPin`
succeeds and returns exactly 64 bytes, the first `|s|` of which are `s`
and the rest zero; for every longer string it fails with `PinTooLong`. -/
theorem C8_padPin_correct (s : List Nat) :
    (s.length ≤ 64 →
      padPin s = .ok (s ++ List.replicate (64 - s.length) 0) ∧
      (s ++ List.replicate (64 - s.length) 0).length = 64 ∧
      (s ++ List.replicate (64 - s.length) 0).take s.length = s ∧
      (∀ b ∈ (s ++ List.replicate (64 - s.length) 0).drop s.length, b = 0)) ∧
    (s.length > 64 → padPin s = .error .pinTooLong) := by
  constructor
  · intro hle
    refine ⟨?_, ?_, ?_, ?_⟩
    · simp [padPin, Nat.not_lt.mpr hle]
    · simp; omega
    · exact List.take_left s (List.replicate (64 - s.length) 0)
    · intro b hb
      rw [List.drop_append_of_le_length (le_refl _)] at hb
      simp at hb
      exact List.eq_of_mem_replicate (by simpa using hb)
  · intro hgt
    simp [padPin, hgt]

/-- Witness for C8 at the concrete inputs `[1, 2]` (short) and a 65-byte
string (long). -/
theorem C8_padPin_correct_witness :
    padPin [1, 2] = .ok ([1, 2] ++ List.replicate 62 0) ∧
    padPin (List.replicate 65 1) = .error .pinTooLong := by
  constructor
  · exact ((C8_padPin_correct [1, 2]).1 (by decide)).1
  · exact (C8_padPin_correct (List.replicate 65 1)).2 (by decide)

/-- Counterexample to claim C3 as stated: the pins `[9, 7]` and
`[9, 7, 0]` differ, yet `ValidatePin` on the packet generated with pin
`[9, 7]` accepts `[9, 7, 0]` (zero-padding is not injective: a pin that
appends a NUL byte pads to the same 64 bytes), instead of returning
`InvalidPin`. -/
theorem C3_counterexample :
    sampleCore.GenerateKeyshareSecret 5 [3, 3, 3] [9, 7] = .ok sampleEp ∧
    ([9, 7, 0] : List Nat) ≠ [9, 7] ∧
    (sampleCore.ValidatePin 1000 sampleEp [9, 7, 0] "u").isOk = true ∧
    sampleCore.ValidatePin 1000 sampleEp [9, 7, 0] "u" ≠ .error .invalidPin := by
  refine ⟨rfl, by decide, rfl, ?_⟩
  intro hcontra
  have h : sampleCore.ValidatePin 1000 sampleEp [9, 7, 0] "u" = .ok sampleToken := rfl
  rw [h] at hcontra
  exact Except.noConfusion hcontra

/-- Helper: a packet produced by `GenerateKeyshareSecret` decrypts to
the padded pin, the drawn secret and the drawn id. -/
theorem generate_decrypts (c : Core) (freshSecret : Int) (freshID pin padded : List Nat)
    (ep : EncryptedKeysharePacket)
    (hgen : c.GenerateKeyshareSecret freshSecret freshID pin = .ok ep)
    (hpad : padPin pin = .ok padded) :
    decryptPacket ep = .ok { pinHash := padded, secret := freshSecret, id := freshID } := by
  unfold Core.GenerateKeyshareSecret at hgen
  rw [hpad] at hgen
  dsimp only [UnencryptedKeysharePacket.setPin, UnencryptedKeysharePacket.setKeyshareSecret,
    UnencryptedKeysharePacket.setID] at hgen
  by_cases hs : 0 ≤ freshSecret ∧ freshSecret < 2 ^ (8 * 64)
  · rw [if_pos hs] at hgen
    dsimp only at hgen
    simp only [Except.ok.injEq] at hgen
    subst hgen
    rfl
  · rw [if_neg hs] at hgen
    exact Except.noConfusion hgen

/-- Claim C3 amended: `ValidatePin` on the packet generated from `pin`
returns a token exactly when the padded form of the supplied pin equals
the padded form of `pin`, and `InvalidPin` otherwise; distinct pins whose
64-byte zero-paddings coincide (they differ only by trailing NUL bytes)
are accepted. -/
theorem C3_amended_validate_pin (c : Core) (freshSecret : Int) (freshID : List Nat)
    (pin pin2 : List Nat) (uid : String) (now : Int) (ep : EncryptedKeysharePacket)
    (padded padded2 : List Nat)
    (hgen : c.GenerateKeyshareSecret freshSecret freshID pin = .ok ep)
    (hpad : padPin pin = .ok padded)
    (hpad2 : padPin pin2 = .ok padded2) :
    (padded2 = padded → (c.ValidatePin now ep pin2 uid).isOk = true) ∧
    (padded2 ≠ padded → c.ValidatePin now ep pin2 uid = .error .invalidPin) := by
  have hdec := generate_decrypts c freshSecret freshID pin padded ep hgen hpad
  unfold Core.ValidatePin
  rw [hpad2, hdec]
  constructor
  · intro heq
    subst heq
    simp [UnencryptedKeysharePacket.pin, hmacEqual, Except.isOk, Except.toBool]
  · intro hne
    simp only [UnencryptedKeysharePacket.pin, hmacEqual]
    rw [decide_eq_false (by simpa using fun h => hne h.symm)]
    rfl

/-- Witness for the amended C3: concrete accept (equal padding, pins
`[9, 7]` and `[9, 7, 0]`) and concrete reject (pin `[8]`). -/
theorem C3_amended_validate_pin_witness :
    (sampleCore.ValidatePin 1000 sampleEp [9, 7, 0] "u").isOk = true ∧
    sampleCore.ValidatePin 1000 sampleEp [8] "u" = .error .invalidPin := by
  constructor
  · exact (C3_amended_validate_pin sampleCore 5 [3, 3, 3] [9, 7] [9, 7, 0] "u" 1000 sampleEp
      ([9, 7] ++ List.replicate 62 0) ([9, 7] ++ List.replicate 62 0) rfl rfl (by rfl)).1 rfl
  · exact (C3_amended_validate_pin sampleCore 5 [3, 3, 3] [9, 7] [8] "u" 1000 sampleEp
      ([9, 7] ++ List.replicate 62 0) ([8] ++ List.replicate 63 0) rfl rfl (by rfl)).2 (by decide)

/-- Helper: a successful `ValidatePin` returns exactly the RS256 token
with the fixed claim set over the decrypted packet. -/
theorem validatePin_ok (c : Core) (now : Int) (ep : EncryptedKeysharePacket) (pin : List Nat)
    (uid : String) (p : UnencryptedKeysharePacket) (tok : Token)
    (hdec : decryptPacket ep = .ok p)
    (hval : c.ValidatePin now ep pin uid = .ok tok) :
    tok = {
      alg := JWTAlg.RS256
      kid := c.signKeyID
      sig := some c.signKey
      claims := {
        iss := some (JVal.jstr "keyshare_server")
        sub := some (JVal.jstr "auth_tok")
        iat := some (JVal.jnum now)
        nbf := none
        exp := some (JVal.jnum (now + 180))
        user_id := some (JVal.jstr uid)
        token_id := some (JVal.jstr (String.mk (b64Encode p.id)))
        proofP := none } } := by
  unfold Core.ValidatePin at hval
  cases hpad : padPin pin with
  | error e => rw [hpad] at hval; exact Except.noConfusion hval
  | ok padded =>
    rw [hpad, hdec] at hval
    dsimp only at hval
    by_cases hm : hmacEqual p.pin padded = true
    · rw [if_pos hm] at hval
      simp only [Except.ok.injEq] at hval
      exact hval.symm
    · rw [if_neg hm] at hval
      exact Except.noConfusion hval

/-- Claim C7: the access token minted by `ValidatePin` carries
`iss="keyshare_server"`, `sub="auth_tok"`, the supplied `user_id`,
`iat = now`, `exp = iat + 180`, `token_id = base64(packet id)`; the
signing-key identifier sits in the header and the token is RS256-signed
with the engine key. -/
theorem C7_access_token_claims (c : Core) (now : Int) (ep : EncryptedKeysharePacket)
    (pin : List Nat) (uid : String) (p : UnencryptedKeysharePacket) (tok : Token)
    (hdec : decryptPacket ep = .ok p)
    (hval : c.ValidatePin now ep pin uid = .ok tok) :
    tok.claims.iss = some (JVal.jstr "keyshare_server") ∧
    tok.claims.sub = some (JVal.jstr "auth_tok") ∧
    tok.claims.user_id = some (JVal.jstr uid) ∧
    tok.claims.iat = some (JVal.jnum now) ∧
    tok.claims.exp = some (JVal.jnum (now + 180)) ∧
    tok.claims.token_id = some (JVal.jstr (String.mk (b64Encode p.id))) ∧
    tok.kid = c.signKeyID ∧ tok.alg = JWTAlg.RS256 ∧ tok.sig = some c.signKey := by
  have h := validatePin_ok c now ep pin uid p tok hdec hval
  subst h
  exact ⟨rfl, rfl, rfl, rfl, rfl, rfl, rfl, rfl, rfl⟩

/-- Witness for C7 at the concrete sample engine, packet and pin. -/
theorem C7_access_token_claims_witness :
    sampleToken.claims.iss = some (JVal.jstr "keyshare_server") ∧
    sampleToken.claims.sub = some (JVal.jstr "auth_tok") ∧
    sampleToken.claims.user_id = some (JVal.jstr "u") ∧
    sampleToken.claims.iat = some (JVal.jnum 1000) ∧
    sampleToken.claims.exp = some (JVal.jnum (1000 + 180)) ∧
    sampleToken.claims.token_id = some (JVal.jstr (String.mk (b64Encode samplePacket.id))) ∧
    sampleToken.kid = sampleCore.signKeyID ∧ sampleToken.alg = JWTAlg.RS256 ∧
    sampleToken.sig = some sampleCore.signKey :=
  C7_access_token_claims sampleCore 1000 sampleEp [9, 7] "u" samplePacket sampleToken rfl rfl

/-- Helper: a successful `ChangePin` re-encrypts the decrypted packet
with the new padded pin and the fresh id, leaving the secret alone. -/
theorem changePin_decrypts (c : Core) (freshID : List Nat) (ep ep2 : EncryptedKeysharePacket)
    (oldpin newpin : List Nat) (p : UnencryptedKeysharePacket)
    (hdec : decryptPacket ep = .ok p)
    (hchange : c.ChangePin freshID ep oldpin newpin = .ok ep2) :
    ∃ newPadded, padPin newpin = .ok newPadded ∧
      decryptPacket ep2 = .ok { pinHash := newPadded, secret := p.secret, id := freshID } := by
  unfold Core.ChangePin at hchange
  cases hold : padPin oldpin with
  | error e => rw [hold] at hchange; exact Except.noConfusion hchange
  | ok oldPadded =>
    rw [hold] at hchange
    cases hnew : padPin newpin with
    | error e => rw [hnew] at hchange; exact Except.noConfusion hchange
    | ok newPadded =>
      rw [hnew, hdec] at hchange
      dsimp only at hchange
      by_cases hm : hmacEqual p.pin oldPadded = true
      · rw [if_pos hm] at hchange
        simp only [Except.ok.injEq] at hchange
        subst hchange
        exact ⟨newPadded, rfl, rfl⟩
      · rw [if_neg hm] at hchange
        exact Except.noConfusion hchange

/-- Claim C6: `ChangePin` preserves the keyshare secret; the new packet
decrypts to the old packet with only `pin_hash` (now the padded new pin)
and `id` (now the fresh id) replaced. -/
theorem C6_change_pin_preserves_secret (c : Core) (freshID : List Nat)
    (ep ep2 : EncryptedKeysharePacket) (oldpin newpin newPadded : List Nat)
    (p : UnencryptedKeysharePacket)
    (hdec : decryptPacket ep = .ok p)
    (hnew : padPin newpin = .ok newPadded)
    (hchange : c.ChangePin freshID ep oldpin newpin = .ok ep2) :
    decryptPacket ep2 = .ok { pinHash := newPadded, secret := p.secret, id := freshID } := by
  obtain ⟨np, hnp, hdec2⟩ := changePin_decrypts c freshID ep ep2 oldpin newpin p hdec hchange
  rw [hnew] at hnp
  simp only [Except.ok.injEq] at hnp
  rw [hnp]
  exact hdec2

/-- The sample packet after a pin change to `[1, 2]` with fresh id
`[4, 4, 4]`. -/
def c6NewPacket : UnencryptedKeysharePacket :=
  { pinHash := [1, 2] ++ List.replicate 62 0, secret := 5, id := [4, 4, 4] }

/-- Witness for C6: changing the pin of the sample packet from
`[9, 7]` to `[1, 2]` with fresh id `[4, 4, 4]`. -/
theorem C6_change_pin_preserves_secret_witness :
    decryptPacket (encryptPacket c6NewPacket) = .ok c6NewPacket :=
  C6_change_pin_preserves_secret sampleCore [4, 4, 4] sampleEp (encryptPacket c6NewPacket)
    [9, 7] [1, 2] ([1, 2] ++ List.replicate 62 0) samplePacket rfl rfl rfl

/-- Helper: a successful `jwtParse` returns the token's own claims. -/
theorem jwtParse_ok_claims (pubKey : Nat) (t : Token) (now : Int) (claims : TokenClaims)
    (h : jwtParse pubKey t now = .ok claims) : claims = t.claims := by
  unfold jwtParse at h
  split at h
  · exact Except.noConfusion h
  · split at h
    · exact Except.noConfusion h
    · split at h
      · exact Except.noConfusion h
      · simp only [Except.ok.injEq] at h
        exact h.symm

/-- Helper: when the token's `token_id` decodes to bytes different from
the id of the packet the (decryptable) `ep` holds, `verifyAccess` fails
with `ErrInvalidJWT` at every verification time. -/
theorem verifyAccess_id_mismatch (c : Core) (now : Int) (ep : EncryptedKeysharePacket)
    (t : Token) (s : String) (d : List Nat) (p : UnencryptedKeysharePacket)
    (htid : t.claims.token_id = some (JVal.jstr s))
    (hdecode : b64Decode s.toList = some d)
    (hdec : decryptPacket ep = .ok p)
    (hne : d ≠ p.id) :
    c.verifyAccess now ep t = .error .invalidJWT := by
  unfold Core.verifyAccess
  cases hparse : jwtParse c.signKey t now with
  | error e => rfl
  | ok claims =>
    have hcl := jwtParse_ok_claims c.signKey t now claims hparse
    subst hcl
    dsimp only
    split
    · rfl
    · split
      · rfl
      · rw [htid]
        dsimp only
        rw [hdecode]
        dsimp only
        rw [hdec]
        dsimp only
        rw [show hmacEqual p.id d = false from decide_eq_false (fun h => hne h.symm)]
        rfl

/-- Claim C4: a token issued by `ValidatePin` against `ep1` is rejected
with `InvalidJWT` by `ValidateJWT` against the packet `ep2` produced by
`ChangePin`, whose freshly drawn id differs from the old id, at every
verification time. -/
theorem C4_token_packet_binding (c : Core) (now : Int) (ep1 ep2 : EncryptedKeysharePacket)
    (pin oldpin newpin freshID : List Nat) (uid : String)
    (p1 : UnencryptedKeysharePacket) (tok : Token)
    (hdec1 : decryptPacket ep1 = .ok p1)
    (hbytes : ∀ b ∈ p1.id, b < 256)
    (hval : c.ValidatePin now ep1 pin uid = .ok tok)
    (hchange : c.ChangePin freshID ep1 oldpin newpin = .ok ep2)
    (hfresh : freshID ≠ p1.id) :
    ∀ now2 : Int, c.ValidateJWT now2 ep2 tok = .error .invalidJWT := by
  intro now2
  obtain ⟨newPadded, hnewpad, hdec2⟩ :=
    changePin_decrypts c freshID ep1 ep2 oldpin newpin p1 hdec1 hchange
  have htok := validatePin_ok c now ep1 pin uid p1 tok hdec1 hval
  have hmismatch := verifyAccess_id_mismatch c now2 ep2 tok
    (String.mk (b64Encode p1.id)) p1.id
    { pinHash := newPadded, secret := p1.secret, id := freshID }
    (by rw [htok]) (b64_roundtrip p1.id hbytes) hdec2
    (by intro h; exact hfresh (h.symm))
  unfold Core.ValidateJWT
  rw [hmismatch]

/-- Witness for C4: the concrete sample token against the pin-changed
sample packet at verification time 1000. -/
theorem C4_token_packet_binding_witness :
    sampleCore.ValidateJWT 1000 (encryptPacket c6NewPacket) sampleToken =
      .error .invalidJWT :=
  C4_token_packet_binding sampleCore 1000 sampleEp (encryptPacket c6NewPacket)
    [9, 7] [9, 7] [1, 2] [4, 4, 4] "u" samplePacket sampleToken rfl (by decide) rfl rfl
    (by decide) 1000

/-- Helper: the character list of a packed string. -/
theorem string_mk_toList (cs : List Char) : (String.mk cs).toList = cs := rfl

/-- Claim C10: token verification never examines `iss`, `sub` or
`user_id`: a correctly signed RS256 token with a future numeric `exp` and
a `token_id` matching the packet id passes `ValidateJWT`, whatever those
three claims hold (including absence). -/
theorem C10_verification_ignores_identity_claims (c : Core) (now e : Int)
    (ep : EncryptedKeysharePacket) (p : UnencryptedKeysharePacket)
    (kid : String) (iss sub uid pp : Option JVal)
    (hdec : decryptPacket ep = .ok p)
    (hbytes : ∀ b ∈ p.id, b < 256)
    (hnow : 0 ≤ now) (hexp : now < e) :
    c.ValidateJWT now ep
      { alg := JWTAlg.RS256, kid := kid, sig := some c.signKey,
        claims := { iss := iss, sub := sub, iat := none, nbf := none,
                    exp := some (JVal.jnum e), user_id := uid,
                    token_id := some (JVal.jstr (String.mk (b64Encode p.id))),
                    proofP := pp } } = .ok () := by
  have he0 : e ≠ 0 := by omega
  have hle : now ≤ e := le_of_lt hexp
  simp [Core.ValidateJWT, Core.verifyAccess, jwtParse, mapClaimsValid, verifyExpClaim,
    verifyExpNum, verifyIatClaim, verifyNbfClaim, he0, hle, string_mk_toList,
    b64_roundtrip p.id hbytes, hdec, hmacEqual]

/-- Witness for C10: the sample engine and packet with a token whose
`iss`, `sub` and `user_id` are junk values. -/
theorem C10_verification_ignores_identity_claims_witness :
    sampleCore.ValidateJWT 1000 sampleEp
      { alg := JWTAlg.RS256, kid := "other", sig := some sampleCore.signKey,
        claims := { iss := some JVal.jother, sub := none, iat := none, nbf := none,
                    exp := some (JVal.jnum 1001), user_id := some (JVal.jnum 9),
                    token_id := some (JVal.jstr (String.mk (b64Encode samplePacket.id))),
                    proofP := none } } = .ok () :=
  C10_verification_ignores_identity_claims sampleCore 1000 1001 sampleEp samplePacket
    "other" (some JVal.jother) none (some (JVal.jnum 9)) none rfl (by decide)
    (by decide) (by decide)

/-- Helper: a successful `jwtParse` implies the RS256 algorithm, valid
time claims and the engine signature. -/
theorem jwtParse_ok_conditions (pubKey : Nat) (t : Token) (now : Int) (cl : TokenClaims)
    (h : jwtParse pubKey t now = .ok cl) :
    t.alg = JWTAlg.RS256 ∧ mapClaimsValid t.claims now = true ∧ t.sig = some pubKey := by
  unfold jwtParse at h
  split at h
  · exact Except.noConfusion h
  · split at h
    · exact Except.noConfusion h
    · split at h
      · exact Except.noConfusion h
      · rename_i h1 h2 h3
        exact ⟨not_not.mp h1, not_not.mp h2, not_not.mp h3⟩

/-- Helper: when `jwtParse` cannot succeed, `verifyAccess` reports
`ErrInvalidJWT`. -/
theorem verifyAccess_parse_fail (c : Core) (now : Int) (ep : EncryptedKeysharePacket)
    (t : Token) (h : ∀ cl, jwtParse c.signKey t now = .ok cl → False) :
    c.verifyAccess now ep t = .error .invalidJWT := by
  unfold Core.verifyAccess
  cases hparse : jwtParse c.signKey t now with
  | error e => rfl
  | ok cl => exact absurd hparse (fun hh => h cl hh)

/-- Helper: when the required expiry check fails, `verifyAccess` reports
`ErrInvalidJWT`. -/
theorem verifyAccess_exp_fail (c : Core) (now : Int) (ep : EncryptedKeysharePacket)
    (t : Token) (h : verifyExpClaim t.claims.exp now true = false) :
    c.verifyAccess now ep t = .error .invalidJWT := by
  unfold Core.verifyAccess
  cases hparse : jwtParse c.signKey t now with
  | error e => rfl
  | ok claims =>
    have hcl := jwtParse_ok_claims c.signKey t now claims hparse
    subst hcl
    dsimp only
    split
    · rfl
    · rw [if_pos (by simp [h])]

/-- Helper: when the `token_id` claim is missing, of non-string type or
not base64, `verifyAccess` reports `ErrInvalidJWT`. -/
theorem verifyAccess_tokenid_fail (c : Core) (now : Int) (ep : EncryptedKeysharePacket)
    (t : Token)
    (h : ∀ s d, t.claims.token_id = some (JVal.jstr s) → b64Decode s.toList ≠ some d) :
    c.verifyAccess now ep t = .error .invalidJWT := by
  unfold Core.verifyAccess
  cases hparse : jwtParse c.signKey t now with
  | error e => rfl
  | ok claims =>
    have hcl := jwtParse_ok_claims c.signKey t now claims hparse
    subst hcl
    dsimp only
    split
    · rfl
    · split
      · rfl
      · split
        · rfl
        · rename_i s htid
          cases hdecode : b64Decode s.toList with
          | none => rfl
          | some d => exact absurd hdecode (h s d htid)
        · rfl

/-- Helper: whenever the packet itself decrypts, any `verifyAccess`
failure is the single error `ErrInvalidJWT`. -/
theorem verifyAccess_error_classification (c : Core) (now : Int)
    (ep : EncryptedKeysharePacket) (t : Token) (p : UnencryptedKeysharePacket) (e : KError)
    (hdec : decryptPacket ep = .ok p)
    (h : c.verifyAccess now ep t = .error e) : e = .invalidJWT := by
  unfold Core.verifyAccess at h
  cases hparse : jwtParse c.signKey t now with
  | error e2 =>
      rw [hparse] at h
      dsimp only at h
      exact (Except.error.injEq _ _ ▸ h).symm
  | ok claims =>
      rw [hparse] at h
      have hcl := jwtParse_ok_claims c.signKey t now claims hparse
      subst hcl
      dsimp only at h
      split at h
      · simp only [Except.error.injEq] at h; exact h.symm
      · split at h
        · simp only [Except.error.injEq] at h; exact h.symm
        · split at h
          · simp only [Except.error.injEq] at h; exact h.symm
          · rename_i s htid
            cases hdecode : b64Decode s.toList with
            | none =>
                rw [hdecode] at h
                simp only [Except.error.injEq] at h; exact h.symm
            | some d =>
                rw [hdecode] at h
                dsimp only at h
                rw [hdec] at h
                dsimp only at h
                split at h
                · exact Except.noConfusion h
                · simp only [Except.error.injEq] at h; exact h.symm
          · simp only [Except.error.injEq] at h; exact h.symm

/-- Helper: `ValidateJWT` propagates exactly the `verifyAccess` error. -/
theorem validateJWT_error_iff (c : Core) (now : Int) (ep : EncryptedKeysharePacket)
    (t : Token) (e : KError) :
    c.ValidateJWT now ep t = .error e ↔ c.verifyAccess now ep t = .error e := by
  unfold Core.ValidateJWT
  cases h : c.verifyAccess now ep t <;> simp

/-- Counterexample to claim C2 as stated: a token whose `exp` equals the
current time — so not strictly in the future — still verifies, because
jwt-go's `verifyExp` accepts `now <= exp`. -/
theorem C2_counterexample :
    sampleToken.claims.exp = some (JVal.jnum 1180) ∧
    ¬ ((1180 : Int) < 1180) ∧
    sampleCore.ValidateJWT 1180 sampleEp sampleToken = .ok () :=
  ⟨rfl, by decide, rfl⟩

/-- Claim C2 amended: `ValidateJWT` rejects non-RS256 tokens, wrongly
signed tokens, tokens whose `exp` is missing, non-numeric, zero or
strictly in the past (a token with `exp` equal to the current second
still verifies), tokens whose `token_id` is missing, non-string or not
base64, and tokens whose decoded `token_id` differs from the packet id;
and every token-verification failure surfaces as the single error
`InvalidJWT`. -/
theorem C2_amended_verify_rejections (c : Core) (now : Int) (ep : EncryptedKeysharePacket)
    (t : Token) :
    (t.alg ≠ JWTAlg.RS256 → c.ValidateJWT now ep t = .error .invalidJWT) ∧
    (t.sig ≠ some c.signKey → c.ValidateJWT now ep t = .error .invalidJWT) ∧
    (t.claims.exp = none → c.ValidateJWT now ep t = .error .invalidJWT) ∧
    (∀ v, t.claims.exp = some v → (∀ n : Int, v ≠ JVal.jnum n) →
      c.ValidateJWT now ep t = .error .invalidJWT) ∧
    (∀ n : Int, t.claims.exp = some (JVal.jnum n) → n = 0 ∨ n < now →
      c.ValidateJWT now ep t = .error .invalidJWT) ∧
    (t.claims.token_id = none → c.ValidateJWT now ep t = .error .invalidJWT) ∧
    (∀ v, t.claims.token_id = some v → (∀ s : String, v ≠ JVal.jstr s) →
      c.ValidateJWT now ep t = .error .invalidJWT) ∧
    (∀ s : String, t.claims.token_id = some (JVal.jstr s) → b64Decode s.toList = none →
      c.ValidateJWT now ep t = .error .invalidJWT) ∧
    (∀ (s : String) (d : List Nat) (p : UnencryptedKeysharePacket),
      t.claims.token_id = some (JVal.jstr s) → b64Decode s.toList = some d →
      decryptPacket ep = .ok p → d ≠ p.id →
      c.ValidateJWT now ep t = .error .invalidJWT) ∧
    (∀ (p : UnencryptedKeysharePacket) (e : KError), decryptPacket ep = .ok p →
      c.ValidateJWT now ep t = .error e → e = .invalidJWT) := by
  refine ⟨?_, ?_, ?_, ?_, ?_, ?_, ?_, ?_, ?_, ?_⟩
  · intro halg
    exact (validateJWT_error_iff c now ep t _).mpr
      (verifyAccess_parse_fail c now ep t
        (fun cl hok => halg (jwtParse_ok_conditions c.signKey t now cl hok).1))
  · intro hsig
    exact (validateJWT_error_iff c now ep t _).mpr
      (verifyAccess_parse_fail c now ep t
        (fun cl hok => hsig (jwtParse_ok_conditions c.signKey t now cl hok).2.2))
  · intro hnone
    exact (validateJWT_error_iff c now ep t _).mpr
      (verifyAccess_exp_fail c now ep t (by rw [hnone]; rfl))
  · intro v hv hnn
    refine (validateJWT_error_iff c now ep t _).mpr (verifyAccess_exp_fail c now ep t ?_)
    rw [hv]
    cases v with
    | jnum n => exact absurd rfl (hnn n)
    | jstr s => rfl
    | jother => rfl
  · intro n hn hpast
    refine (validateJWT_error_iff c now ep t _).mpr (verifyAccess_exp_fail c now ep t ?_)
    rw [hn]
    simp only [verifyExpClaim, verifyExpNum]
    rcases hpast with h0 | hlt
    · rw [if_pos h0]; rfl
    · by_cases h0 : n = 0
      · rw [if_pos h0]; rfl
      · rw [if_neg h0]
        exact decide_eq_false (by omega)
  · intro hnone
    refine (validateJWT_error_iff c now ep t _).mpr (verifyAccess_tokenid_fail c now ep t ?_)
    intro s d hsome
    rw [hnone] at hsome
    exact Option.noConfusion hsome
  · intro v hv hns
    refine (validateJWT_error_iff c now ep t _).mpr (verifyAccess_tokenid_fail c now ep t ?_)
    intro s d hsome
    rw [hv] at hsome
    simp only [Option.some.injEq] at hsome
    exact absurd hsome (hns s)
  · intro s hs hdecode
    refine (validateJWT_error_iff c now ep t _).mpr (verifyAccess_tokenid_fail c now ep t ?_)
    intro s2 d hsome
    rw [hs] at hsome
    simp only [Option.some.injEq, JVal.jstr.injEq] at hsome
    subst hsome
    rw [hdecode]
    exact fun hcontra => Option.noConfusion hcontra
  · intro s d p hs hdecode hdec hne
    exact (validateJWT_error_iff c now ep t _).mpr
      (verifyAccess_id_mismatch c now ep t s d p hs hdecode hdec hne)
  · intro p e hdec herr
    exact verifyAccess_error_classification c now ep t p e hdec
      ((validateJWT_error_iff c now ep t e).mp herr)

/-- A token builder for the rejection witnesses: algorithm, signing key,
`exp` claim and `token_id` claim, all other claims absent. -/
def mkTok (alg : JWTAlg) (sig : Option Nat) (e tid : Option JVal) : Token :=
  { alg := alg, kid := "k0", sig := sig
    claims := { iss := none, sub := none, iat := none, nbf := none, exp := e,
                user_id := none, token_id := tid, proofP := none } }

/-- Witness for the amended C2: each rejection conjunct applied to a
concrete defective token against the sample engine and packet at time
1000 (the good `exp` is 1100, the good `token_id` is "AwMD"). -/
theorem C2_amended_verify_rejections_witness :
    sampleCore.ValidateJWT 1000 sampleEp
      (mkTok JWTAlg.HS256 (some 1) (some (JVal.jnum 1100)) (some (JVal.jstr "AwMD"))) =
      .error .invalidJWT ∧
    sampleCore.ValidateJWT 1000 sampleEp
      (mkTok JWTAlg.RS256 (some 2) (some (JVal.jnum 1100)) (some (JVal.jstr "AwMD"))) =
      .error .invalidJWT ∧
    sampleCore.ValidateJWT 1000 sampleEp
      (mkTok JWTAlg.RS256 (some 1) none (some (JVal.jstr "AwMD"))) = .error .invalidJWT ∧
    sampleCore.ValidateJWT 1000 sampleEp
      (mkTok JWTAlg.RS256 (some 1) (some (JVal.jstr "soon")) (some (JVal.jstr "AwMD"))) =
      .error .invalidJWT ∧
    sampleCore.ValidateJWT 1000 sampleEp
      (mkTok JWTAlg.RS256 (some 1) (some (JVal.jnum 500)) (some (JVal.jstr "AwMD"))) =
      .error .invalidJWT ∧
    sampleCore.ValidateJWT 1000 sampleEp
      (mkTok JWTAlg.RS256 (some 1) (some (JVal.jnum 1100)) none) = .error .invalidJWT ∧
    sampleCore.ValidateJWT 1000 sampleEp
      (mkTok JWTAlg.RS256 (some 1) (some (JVal.jnum 1100)) (some (JVal.jnum 3))) =
      .error .invalidJWT ∧
    sampleCore.ValidateJWT 1000 sampleEp
      (mkTok JWTAlg.RS256 (some 1) (some (JVal.jnum 1100)) (some (JVal.jstr "!!"))) =
      .error .invalidJWT ∧
    sampleCore.ValidateJWT 1000 sampleEp
      (mkTok JWTAlg.RS256 (some 1) (some (JVal.jnum 1100)) (some (JVal.jstr "BAMD"))) =
      .error .invalidJWT ∧
    (KError.invalidJWT = KError.invalidJWT) := by
  refine ⟨?_, ?_, ?_, ?_, ?_, ?_, ?_, ?_, ?_, ?_⟩
  · exact (C2_amended_verify_rejections sampleCore 1000 sampleEp _).1 (by decide)
  · exact (C2_amended_verify_rejections sampleCore 1000 sampleEp _).2.1 (by decide)
  · exact (C2_amended_verify_rejections sampleCore 1000 sampleEp _).2.2.1 rfl
  · exact (C2_amended_verify_rejections sampleCore 1000 sampleEp _).2.2.2.1
      (JVal.jstr "soon") rfl (fun n h => JVal.noConfusion h)
  · exact (C2_amended_verify_rejections sampleCore 1000 sampleEp _).2.2.2.2.1
      500 rfl (Or.inr (by decide))
  · exact (C2_amended_verify_rejections sampleCore 1000 sampleEp _).2.2.2.2.2.1 rfl
  · exact (C2_amended_verify_rejections sampleCore 1000 sampleEp _).2.2.2.2.2.2.1
      (JVal.jnum 3) rfl (fun s h => JVal.noConfusion h)
  · exact (C2_amended_verify_rejections sampleCore 1000 sampleEp _).2.2.2.2.2.2.2.1
      "!!" rfl rfl
  · exact (C2_amended_verify_rejections sampleCore 1000 sampleEp _).2.2.2.2.2.2.2.2.1
      "BAMD" [4, 3, 3] samplePacket rfl rfl rfl (by decide)
  · exact (C2_amended_verify_rejections sampleCore 1000 sampleEp
      (mkTok JWTAlg.HS256 (some 1) (some (JVal.jnum 1100)) (some (JVal.jstr "AwMD")))
      ).2.2.2.2.2.2.2.2.2 samplePacket KError.invalidJWT rfl
      ((C2_amended_verify_rejections sampleCore 1000 sampleEp _).1 (by decide))

/-- Helper: once the challenge, key and access checks of
`GenerateResponse` pass, the store after the call has no record under the
supplied commit id (the record is deleted whether or not it existed) and
all other ids are untouched. -/
theorem generateResponse_consumes (c : Core) (st : CommitmentStore) (now : Int)
    (ep : EncryptedKeysharePacket) (t : Token) (cid : Nat) (ch : Int) (k key : Nat)
    (p : UnencryptedKeysharePacket)
    (hch : ¬ (natBitLen ch.natAbs > Lh1024 ∨ ch < 0))
    (hkey : c.trustedKeys k = some key)
    (hacc : c.verifyAccess now ep t = .ok p) :
    (c.GenerateResponse st now ep t cid ch k).2 = fun j => if j = cid then none else st j := by
  unfold Core.GenerateResponse
  rw [if_neg hch, hkey]
  dsimp only
  rw [hacc]
  dsimp only
  cases st cid <;> rfl

/-- Claim C1: commit records are single-use. After a `GenerateResponse`
call with commit id `cid` that passed the challenge, key and access
checks (so it reached the fetch, whether it then succeeded or returned
`UnknownCommit`), any second `GenerateResponse` with the same `cid`, a
valid challenge, a known key and a verifying token returns
`UnknownCommit`. -/
theorem C1_commit_single_use (c : Core) (st st1 : CommitmentStore)
    (now1 now2 : Int) (ep1 ep2 : EncryptedKeysharePacket) (t1 t2 : Token)
    (cid : Nat) (ch1 ch2 : Int) (k1 k2 key1 key2 : Nat)
    (p1 p2 : UnencryptedKeysharePacket) (r1 : Except KError Token)
    (hch1 : ¬ (natBitLen ch1.natAbs > Lh1024 ∨ ch1 < 0))
    (hkey1 : c.trustedKeys k1 = some key1)
    (hacc1 : c.verifyAccess now1 ep1 t1 = .ok p1)
    (hfirst : c.GenerateResponse st now1 ep1 t1 cid ch1 k1 = (r1, st1))
    (hch2 : ¬ (natBitLen ch2.natAbs > Lh1024 ∨ ch2 < 0))
    (hkey2 : c.trustedKeys k2 = some key2)
    (hacc2 : c.verifyAccess now2 ep2 t2 = .ok p2) :
    (c.GenerateResponse st1 now2 ep2 t2 cid ch2 k2).1 = .error .unknownCommit := by
  have hst1 : st1 = fun j => if j = cid then none else st j := by
    have hcons := generateResponse_consumes c st now1 ep1 t1 cid ch1 k1 key1 p1 hch1 hkey1 hacc1
    rw [hfirst] at hcons
    exact hcons
  unfold Core.GenerateResponse
  rw [if_neg hch2, hkey2]
  dsimp only
  rw [hacc2]
  dsimp only
  rw [hst1]
  simp

/-- Witness for C1: the sample store holds commit id 5; a first response
call consumes it and a second call with the same id returns
`UnknownCommit`. -/
theorem C1_commit_single_use_witness :
    (sampleCore.GenerateResponse
      (sampleCore.GenerateResponse sampleStore 1000 sampleEp sampleToken 5 1 7).2
      1000 sampleEp sampleToken 5 1 7).1 = .error .unknownCommit :=
  C1_commit_single_use sampleCore sampleStore
    (sampleCore.GenerateResponse sampleStore 1000 sampleEp sampleToken 5 1 7).2
    1000 1000 sampleEp sampleEp sampleToken sampleToken 5 1 1 7 7 70 70
    samplePacket samplePacket
    (sampleCore.GenerateResponse sampleStore 1000 sampleEp sampleToken 5 1 7).1
    (by simp [natBitLen, Lh1024]) rfl rfl rfl
    (by simp [natBitLen, Lh1024]) rfl rfl

/-- Claim C5: a negative or overlong challenge makes `GenerateResponse`
return `InvalidChallenge` with the store untouched, before access or
secrets are consulted; a subsequent call with the same commit id, a valid
challenge, a known key and a verifying token still finds the record and
succeeds. -/
theorem C5_invalid_challenge (c : Core) (st : CommitmentStore) (now : Int)
    (ep : EncryptedKeysharePacket) (t : Token) (cid : Nat) (ch : Int) (k : Nat)
    (hch : natBitLen ch.natAbs > Lh1024 ∨ ch < 0) :
    c.GenerateResponse st now ep t cid ch k = (.error .invalidChallenge, st) ∧
    (∀ (now2 : Int) (ep2 : EncryptedKeysharePacket) (t2 : Token) (ch2 : Int)
      (k2 key2 : Nat) (p2 : UnencryptedKeysharePacket) (cs : Nat),
      ¬ (natBitLen ch2.natAbs > Lh1024 ∨ ch2 < 0) →
      c.trustedKeys k2 = some key2 →
      c.verifyAccess now2 ep2 t2 = .ok p2 →
      st cid = some cs →
      ((c.GenerateResponse st now2 ep2 t2 cid ch2 k2).1).isOk = true) := by
  constructor
  · unfold Core.GenerateResponse
    rw [if_pos hch]
  · intro now2 ep2 t2 ch2 k2 key2 p2 cs hch2 hkey2 hacc2 hfound
    unfold Core.GenerateResponse
    rw [if_neg hch2, hkey2]
    dsimp only
    rw [hacc2]
    dsimp only
    rw [hfound]
    rfl

/-- Witness for C5: the challenge -1 is rejected on the sample store and
the record under commit id 5 survives for a later valid call. -/
theorem C5_invalid_challenge_witness :
    sampleCore.GenerateResponse sampleStore 1000 sampleEp sampleToken 5 (-1) 7 =
      (.error .invalidChallenge, sampleStore) ∧
    ((sampleCore.GenerateResponse sampleStore 1000 sampleEp sampleToken 5 1 7).1).isOk =
      true := by
  have h := C5_invalid_challenge sampleCore sampleStore 1000 sampleEp sampleToken 5 (-1) 7
    (Or.inr (by decide))
  exact ⟨h.1, h.2 1000 sampleEp sampleToken 1 7 70 samplePacket 11
    (by simp [natBitLen, Lh1024]) rfl rfl rfl⟩

/-! ### The public API as a step on the full engine state -/

/-- One invocation of a public engine operation with its arguments. -/
inductive EngineOp where
  | genSecret (freshSecret : Int) (freshID pin : List Nat)
  | dangerousBuild (secret : Int) (freshID pin : List Nat)
  | validatePin (now : Int) (ep : EncryptedKeysharePacket) (pin : List Nat) (uid : String)
  | validateJWT (now : Int) (ep : EncryptedKeysharePacket) (t : Token)
  | changePin (freshID : List Nat) (ep : EncryptedKeysharePacket) (oldpin newpin : List Nat)
  | genCommitments (now : Int) (ep : EncryptedKeysharePacket) (t : Token)
      (keyIDs : List Nat) (rand cid : Nat)
  | genResponse (now : Int) (ep : EncryptedKeysharePacket) (t : Token) (cid : Nat)
      (ch : Int) (k : Nat)

/-- The result of a public engine operation. -/
inductive EngineRes where
  | packet (r : Except KError EncryptedKeysharePacket)
  | token (r : Except KError Token)
  | unit (r : Except KError Unit)
  | commitments (r : Except KError (List Nat × Nat))

/-- The public API as a transition on the mutable engine state (the
commitment store): each arm invokes the corresponding operation; the Go
methods share the store through the receiver, which the functional
translation threads explicitly. -/
def engineStep (c : Core) (st : CommitmentStore) : EngineOp → EngineRes × CommitmentStore
  | .genSecret s i pin => (.packet (c.GenerateKeyshareSecret s i pin), st)
  | .dangerousBuild s i pin => (.packet (c.DangerousBuildKeyshareSecret s i pin), st)
  | .validatePin now ep pin uid => (.token (c.ValidatePin now ep pin uid), st)
  | .validateJWT now ep t => (.unit (c.ValidateJWT now ep t), st)
  | .changePin i ep o n => (.packet (c.ChangePin i ep o n), st)
  | .genCommitments now ep t kids rand cid =>
      ((c.GenerateCommitments st now ep t kids rand cid).map EngineRes.commitments id).swap.swap
  | .genResponse now ep t cid ch k =>
      ((c.GenerateResponse st now ep t cid ch k).map EngineRes.token id).swap.swap

/-- Claim C9: the commitment-store frame invariant over the public API.
The five keyshare-lifecycle operations never touch the store;
`GenerateCommitments` mutates it only on success, inserting exactly the
one record under the fresh commit id; `GenerateResponse` changes at most
the entry under the supplied commit id, leaves the store untouched on
challenge, key and access failures, and deletes the record once those
checks have passed. -/
theorem C9_commit_store_frame (c : Core) (st : CommitmentStore) :
    (∀ s i pin, (engineStep c st (.genSecret s i pin)).2 = st) ∧
    (∀ s i pin, (engineStep c st (.dangerousBuild s i pin)).2 = st) ∧
    (∀ now ep pin uid, (engineStep c st (.validatePin now ep pin uid)).2 = st) ∧
    (∀ now ep t, (engineStep c st (.validateJWT now ep t)).2 = st) ∧
    (∀ i ep o n, (engineStep c st (.changePin i ep o n)).2 = st) ∧
    (∀ now ep t kids rand cid r st2,
      c.GenerateCommitments st now ep t kids rand cid = (r, st2) →
      (r.isOk = true → st2 cid = some rand ∧ ∀ j, j ≠ cid → st2 j = st j) ∧
      (r.isOk = false → st2 = st)) ∧
    (∀ now ep t cid ch k r st2,
      c.GenerateResponse st now ep t cid ch k = (r, st2) →
      (∀ j, j ≠ cid → st2 j = st j) ∧
      ((natBitLen ch.natAbs > Lh1024 ∨ ch < 0) → st2 = st) ∧
      (c.trustedKeys k = none → st2 = st) ∧
      (∀ e, ¬ (natBitLen ch.natAbs > Lh1024 ∨ ch < 0) →
        c.verifyAccess now ep t = .error e → st2 = st) ∧
      (∀ key p, ¬ (natBitLen ch.natAbs > Lh1024 ∨ ch < 0) →
        c.trustedKeys k = some key → c.verifyAccess now ep t = .ok p →
        st2 cid = none)) := by
  refine ⟨fun _ _ _ => rfl, fun _ _ _ => rfl, fun _ _ _ _ => rfl, fun _ _ _ => rfl,
    fun _ _ _ _ => rfl, ?_, ?_⟩
  · intro now ep t kids rand cid r st2 hgc
    unfold Core.GenerateCommitments at hgc
    cases hkl : c.buildKeyList kids with
    | error e =>
        rw [hkl] at hgc
        dsimp only at hgc
        simp only [Prod.mk.injEq] at hgc
        obtain ⟨hr, hst⟩ := hgc
        subst hst
        constructor
        · intro hok; rw [← hr] at hok; exact absurd hok (by simp [Except.isOk, Except.toBool])
        · intro _; rfl
    | ok keyList =>
        rw [hkl] at hgc
        dsimp only at hgc
        cases hacc : c.verifyAccess now ep t with
        | error e =>
            rw [hacc] at hgc
            dsimp only at hgc
            simp only [Prod.mk.injEq] at hgc
            obtain ⟨hr, hst⟩ := hgc
            subst hst
            constructor
            · intro hok; rw [← hr] at hok
              exact absurd hok (by simp [Except.isOk, Except.toBool])
            · intro _; rfl
        | ok p =>
            rw [hacc] at hgc
            dsimp only at hgc
            simp only [Prod.mk.injEq] at hgc
            obtain ⟨hr, hst⟩ := hgc
            subst hst
            constructor
            · intro _
              constructor
              · simp [gabiNewKeyshareCommitments]
              · intro j hj; simp [hj]
            · intro hok; rw [← hr] at hok
              exact absurd hok (by simp [Except.isOk, Except.toBool])
  · intro now ep t cid ch k r st2 hgr
    unfold Core.GenerateResponse at hgr
    by_cases hch : natBitLen ch.natAbs > Lh1024 ∨ ch < 0
    · rw [if_pos hch] at hgr
      simp only [Prod.mk.injEq] at hgr
      obtain ⟨hr, hst⟩ := hgr
      subst hst
      exact ⟨fun _ _ => rfl, fun _ => rfl, fun _ => rfl, fun _ _ _ => rfl,
        fun _ _ hc _ _ => absurd hch hc⟩
    · rw [if_neg hch] at hgr
      cases hkey : c.trustedKeys k with
      | none =>
          rw [hkey] at hgr
          dsimp only at hgr
          simp only [Prod.mk.injEq] at hgr
          obtain ⟨hr, hst⟩ := hgr
          subst hst
          exact ⟨fun _ _ => rfl, fun hc => absurd hc hch, fun _ => rfl,
            fun _ _ _ => rfl,
            fun _ _ _ hk _ => Option.noConfusion hk⟩
      | some key =>
          rw [hkey] at hgr
          dsimp only at hgr
          cases hacc : c.verifyAccess now ep t with
          | error e =>
              rw [hacc] at hgr
              dsimp only at hgr
              simp only [Prod.mk.injEq] at hgr
              obtain ⟨hr, hst⟩ := hgr
              subst hst
              exact ⟨fun _ _ => rfl, fun hc => absurd hc hch,
                fun hk => Option.noConfusion hk,
                fun _ _ _ => rfl,
                fun _ _ _ _ ha => Except.noConfusion ha⟩
          | ok p =>
              rw [hacc] at hgr
              dsimp only at hgr
              have hst : st2 = fun j => if j = cid then none else st j := by
                cases hf : st cid <;> rw [hf] at hgr <;>
                  simp only [Prod.mk.injEq] at hgr <;> exact hgr.2.symm
              subst hst
              refine ⟨fun j hj => by simp [hj], fun hc => absurd hc hch,
                fun hk => Option.noConfusion hk,
                fun e _ ha => Except.noConfusion ha,
                fun _ _ _ _ _ => by simp⟩

/-- Witness for C9 at the sample engine: a commitment call inserts under
the fresh id 9 and a response call deletes under id 5. -/
theorem C9_commit_store_frame_witness :
    ((sampleCore.GenerateCommitments sampleStore 1000 sampleEp sampleToken [7] 33 9).2 9 =
      some 33) ∧
    ((sampleCore.GenerateResponse sampleStore 1000 sampleEp sampleToken 5 1 7).2 5 =
      none) ∧
    (engineStep sampleCore sampleStore (.validateJWT 1000 sampleEp sampleToken)).2 =
      sampleStore := by
  have h := C9_commit_store_frame sampleCore sampleStore
  refine ⟨?_, ?_, h.2.2.2.1 1000 sampleEp sampleToken⟩
  · exact ((h.2.2.2.2.2.1 1000 sampleEp sampleToken [7] 33 9
      (sampleCore.GenerateCommitments sampleStore 1000 sampleEp sampleToken [7] 33 9).1
      (sampleCore.GenerateCommitments sampleStore 1000 sampleEp sampleToken [7] 33 9).2
      rfl).1 (by rfl)).1
  · exact (h.2.2.2.2.2.2 1000 sampleEp sampleToken 5 1 7
      (sampleCore.GenerateResponse sampleStore 1000 sampleEp sampleToken 5 1 7).1
      (sampleCore.GenerateResponse sampleStore 1000 sampleEp sampleToken 5 1 7).2
      rfl).2.2.2.2 70 samplePacket (by simp [natBitLen, Lh1024]) rfl rfl

end Keysharecore
